import Mathlib

/-!
Shallow embedding of the call_summarizer audio-to-text pipeline:
`TranscriptFilter` (src/call_summarizer/utils/transcript_filter.py),
`Transcriber` (src/call_summarizer/transcription/transcriber.py) and the
silence detection of `AudioCapture` (src/call_summarizer/audio/audio_capture.py).
Python strings are modelled as `List Char`; the regular expressions of
`FILTER_PATTERNS` are modelled by a Brzozowski-derivative matcher, with the
`(?i)` flag realised by lowering the subject text (all letters occurring in
the patterns are written lower-case).
-/

namespace CS

/-- Python strings are modelled as lists of characters. -/
abbrev Str := List Char

/-- Python whitespace for `str.strip`, `str.split` and the regex class `\s`:
space, tab, newline, carriage return, vertical tab, form feed. -/
def isWs (c : Char) : Bool :=
  c = ' ' || c = '\t' || c = '\n' || c = '\x0d' || c = '\x0b' || c = '\x0c'

/-- ASCII lower-casing of one character (`str.lower`; inputs are ASCII). -/
def asciiLower (c : Char) : Char :=
  if 'A' ≤ c && c ≤ 'Z' then Char.ofNat (c.toNat + 32) else c

/-- ASCII upper-casing of one character (`str.upper`; inputs are ASCII). -/
def asciiUpper (c : Char) : Char :=
  if 'a' ≤ c && c ≤ 'z' then Char.ofNat (c.toNat - 32) else c

/-- Python `ch.islower()` restricted to ASCII. -/
def isLowerAscii (c : Char) : Bool := 'a' ≤ c && c ≤ 'z'

/-- Python `ch.isalpha()` restricted to ASCII. -/
def isAlphaAscii (c : Char) : Bool :=
  ('a' ≤ c && c ≤ 'z') || ('A' ≤ c && c ≤ 'Z')

/-- Python `str.strip()`: drop whitespace from both ends. -/
def strip (s : Str) : Str :=
  ((s.dropWhile isWs).reverse.dropWhile isWs).reverse

/-- Python `str.lower()` over the whole string. -/
def lowerStr (s : Str) : Str := s.map asciiLower

/-- Helper for `splitWs`: `acc` holds the current word reversed. -/
def splitWsAux : Str → Str → List Str
  | [], acc => if acc = [] then [] else [acc.reverse]
  | c :: cs, acc =>
      if isWs c then
        if acc = [] then splitWsAux cs [] else acc.reverse :: splitWsAux cs []
      else splitWsAux cs (c :: acc)

/-- Python `str.split()` with no argument: split on whitespace runs, no
empty words. -/
def splitWs (s : Str) : List Str := splitWsAux s []

/-- Python `str.startswith` on the character-list model. -/
def startsWithStr : Str → Str → Bool
  | [], _ => true
  | _ :: _, [] => false
  | p :: ps, c :: cs => p = c && startsWithStr ps cs

/-- Python `needle in hay` (substring containment). -/
def containsSub (needle : Str) : Str → Bool
  | [] => startsWithStr needle []
  | c :: cs => startsWithStr needle (c :: cs) || containsSub needle cs

/-- Fuel-driven core of `countOcc` (the fuel bounds the scan position). -/
def countOccAux (p : Str) : Nat → Str → Nat
  | 0, _ => 0
  | _, [] => 0
  | fuel + 1, c :: cs =>
      if startsWithStr p (c :: cs) then
        1 + countOccAux p fuel (cs.drop (p.length - 1))
      else countOccAux p fuel cs

/-- Python `str.count(sub)` for a non-empty `sub`: number of non-overlapping
occurrences, scanning left to right. -/
def countOcc (p s : Str) : Nat :=
  if p = [] then s.length + 1 else countOccAux p s.length s

/-- Regular expressions over characters, with character classes as decidable
predicates; enough for the constructs used in `FILTER_PATTERNS`. -/
inductive RE where
  | emp : RE
  | eps : RE
  | cls (p : Char → Bool) : RE
  | cat (a b : RE) : RE
  | alt (a b : RE) : RE
  | star (a : RE) : RE

/-- Whether the regex accepts the empty string. -/
def RE.nullable : RE → Bool
  | .emp => false
  | .eps => true
  | .cls _ => false
  | .cat a b => a.nullable && b.nullable
  | .alt a b => a.nullable || b.nullable
  | .star _ => true

/-- Simplifying concatenation (absorbs the empty language and drops ε). -/
def RE.scat : RE → RE → RE
  | .emp, _ => .emp
  | _, .emp => .emp
  | .eps, b => b
  | a, .eps => a
  | a, b => .cat a b

/-- Simplifying alternation (drops the empty language). -/
def RE.salt : RE → RE → RE
  | .emp, b => b
  | a, .emp => a
  | a, b => .alt a b

/-- Brzozowski derivative of a regex with respect to one character. -/
def RE.deriv : RE → Char → RE
  | .emp, _ => .emp
  | .eps, _ => .emp
  | .cls p, c => if p c then .eps else .emp
  | .cat a b, c =>
      if a.nullable then .salt (.scat (a.deriv c) b) (b.deriv c)
      else .scat (a.deriv c) b
  | .alt a b, c => .salt (a.deriv c) (b.deriv c)
  | .star a, c => .scat (a.deriv c) (.star a)

/-- Whole-string match via iterated derivatives. -/
def RE.matchStr (r : RE) (s : Str) : Bool :=
  (s.foldl RE.deriv r).nullable

/-- Literal string regex. -/
def litR (s : Str) : RE := s.foldr (fun c r => .cat (.cls (fun d => d = c)) r) .eps

/-- Optional: the regex suffix `?`. -/
def optR (r : RE) : RE := .alt .eps r

/-- At least one repetition: the regex suffix `+`. -/
def plusR (r : RE) : RE := .cat r (.star r)

/-- Concatenation of a list of regexes. -/
def seqR (rs : List RE) : RE := rs.foldr RE.cat .eps

/-- The regex class `\s`. -/
def wsR : RE := .cls isWs

/-- The regex class `\d`. -/
def digR : RE := .cls Char.isDigit

/-- The regex class `\w` (ASCII letters, digits, underscore). -/
def wordR : RE := .cls (fun c => isAlphaAscii c || c.isDigit || c = '_')

/-- The regex `.` (any character except newline). -/
def dotR : RE := .cls (fun c => c ≠ '\n')

/-- The regex class matching any character (used to turn `re.search` into a
whole-string match). -/
def anyR : RE := .cls (fun _ => true)

/-- One `FILTER_PATTERNS` entry: its regex plus its `^` / `$` anchoring. -/
structure Pat where
  anchStart : Bool := false
  anchEnd : Bool := false
  re : RE

/-- Python `re.search(pattern, s)`: some substring of `s` matches, with `^`
anchoring the match to the start of `s` and `$` to its end (no newlines in
the modelled inputs). -/
def reSearch (p : Pat) (s : Str) : Bool :=
  let l := if p.anchStart then p.re else .cat (.star anyR) p.re
  let r := if p.anchEnd then l else .cat l (.star anyR)
  r.matchStr s

/-- Shorthand turning a Lean string literal into the character-list model. -/
def strL (s : String) : Str := s.toList

/-- Literal regex from a string literal. -/
def litS (s : String) : RE := litR s.toList

/-- Pattern `(?i)transcribed by eso`. -/
def pat01 : Pat := ⟨false, false, litS "transcribed by eso"⟩

/-- Core of `(?i)thanks?\s+(you\s+)?for\s+watching`, shared by three patterns. -/
def thanksForWatchingR : List RE :=
  [litS "thank", optR (litS "s"), plusR wsR, optR (seqR [litS "you", plusR wsR]),
   litS "for", plusR wsR, litS "watching"]

/-- Pattern `(?i)thanks?\s+(you\s+)?for\s+watching`. -/
def pat02 : Pat := ⟨false, false, seqR thanksForWatchingR⟩

/-- Pattern `(?i)thanks?\s+(you\s+)?for\s+watching\s+\w*`. -/
def pat03 : Pat := ⟨false, false, seqR (thanksForWatchingR ++ [plusR wsR, .star wordR])⟩

/-- Pattern `(?i)thanks?\s+(you\s+)?for\s+watching\s*$`. -/
def pat04 : Pat := ⟨false, true, seqR (thanksForWatchingR ++ [.star wsR])⟩

/-- Pattern `(?i)watching\s+vide`. -/
def pat05 : Pat := ⟨false, false, seqR [litS "watching", plusR wsR, litS "vide"]⟩

/-- Pattern `(?i)subscribe\s+to.*channel`. -/
def pat06 : Pat :=
  ⟨false, false, seqR [litS "subscribe", plusR wsR, litS "to", .star dotR, litS "channel"]⟩

/-- Pattern `(?i)like.*subscribe`. -/
def pat07 : Pat := ⟨false, false, seqR [litS "like", .star dotR, litS "subscribe"]⟩

/-- Pattern for the phrase "don't forget to subscribe" (case-insensitive). -/
def pat08 : Pat :=
  ⟨false, false, seqR [litS "don't", plusR wsR, litS "forget", plusR wsR,
                       litS "to", plusR wsR, litS "subscribe"]⟩

/-- Pattern `(?i)hit\s+the\s+like\s+button`. -/
def pat09 : Pat :=
  ⟨false, false, seqR [litS "hit", plusR wsR, litS "the", plusR wsR,
                       litS "like", plusR wsR, litS "button"]⟩

/-- Pattern `(?i)ring\s+the\s+bell`. -/
def pat10 : Pat :=
  ⟨false, false, seqR [litS "ring", plusR wsR, litS "the", plusR wsR, litS "bell"]⟩

/-- Pattern `(?i)^\s*(thanks?|thank)\s+(you\s+)?for\s+(watching|viewing)`. -/
def pat11 : Pat :=
  ⟨true, false, seqR [.star wsR, .alt (seqR [litS "thank", optR (litS "s")]) (litS "thank"),
                      plusR wsR, optR (seqR [litS "you", plusR wsR]), litS "for", plusR wsR,
                      .alt (litS "watching") (litS "viewing")]⟩

/-- Pattern `(?i)transcribe\s+accurately\s+with\s+proper\s+punctuation`. -/
def pat12 : Pat :=
  ⟨false, false, seqR [litS "transcribe", plusR wsR, litS "accurately", plusR wsR,
                       litS "with", plusR wsR, litS "proper", plusR wsR, litS "punctuation"]⟩

/-- Pattern `(?i)transcribe\s+accurately`. -/
def pat13 : Pat := ⟨false, false, seqR [litS "transcribe", plusR wsR, litS "accurately"]⟩

/-- Pattern `(?i)proper\s+punctuation\s+and\s+spelling`. -/
def pat14 : Pat :=
  ⟨false, false, seqR [litS "proper", plusR wsR, litS "punctuation", plusR wsR,
                       litS "and", plusR wsR, litS "spelling"]⟩

/-- Pattern `(?i)if\s+you\s+have\s+any\s+questions`. -/
def pat15 : Pat :=
  ⟨false, false, seqR [litS "if", plusR wsR, litS "you", plusR wsR, litS "have",
                       plusR wsR, litS "any", plusR wsR, litS "questions"]⟩

/-- Pattern `(?i)please\s+post\s+them\s+in\s+the\s+comments`. -/
def pat16 : Pat :=
  ⟨false, false, seqR [litS "please", plusR wsR, litS "post", plusR wsR, litS "them",
                       plusR wsR, litS "in", plusR wsR, litS "the", plusR wsR, litS "comments"]⟩

/-- Pattern `(?i)comments?\s+section?\s+below`. -/
def pat17 : Pat :=
  ⟨false, false, seqR [litS "comment", optR (litS "s"), plusR wsR, litS "sectio",
                       optR (litS "n"), plusR wsR, litS "below"]⟩

/-- Pattern `(?i)post\s+.*\s+in\s+.*\s+comments?`. -/
def pat18 : Pat :=
  ⟨false, false, seqR [litS "post", plusR wsR, .star dotR, plusR wsR, litS "in",
                       plusR wsR, .star dotR, plusR wsR, litS "comment", optR (litS "s")]⟩

/-- Pattern `(?i)sign\s+up\s+for\s+.*\s+meeting`. -/
def pat19 : Pat :=
  ⟨false, false, seqR [litS "sign", plusR wsR, litS "up", plusR wsR, litS "for",
                       plusR wsR, .star dotR, plusR wsR, litS "meeting"]⟩

/-- Pattern `(?i)give\s+.*\s+warm\s+welcome`. -/
def pat20 : Pat :=
  ⟨false, false, seqR [litS "give", plusR wsR, .star dotR, plusR wsR,
                       litS "warm", plusR wsR, litS "welcome"]⟩

/-- Pattern `(?i)thank\s+you\s+for\s+being\s+here`. -/
def pat21 : Pat :=
  ⟨false, false, seqR [litS "thank", plusR wsR, litS "you", plusR wsR, litS "for",
                       plusR wsR, litS "being", plusR wsR, litS "here"]⟩

/-- Pattern `(?i)thank\s+you\s+for\s+being\s+here\s+today`. -/
def pat22 : Pat :=
  ⟨false, false, seqR [litS "thank", plusR wsR, litS "you", plusR wsR, litS "for",
                       plusR wsR, litS "being", plusR wsR, litS "here", plusR wsR, litS "today"]⟩

/-- Group `\s*,\s*\d+` of the pattern on line 35 of transcript_filter.py. -/
def numSeqGrp : RE := seqR [.star wsR, litS ",", .star wsR, plusR digR]

/-- Pattern `^\s*\d+(\s*,\s*\d+){10,}`. -/
def pat23 : Pat :=
  ⟨true, false, seqR ([.star wsR, plusR digR] ++ List.replicate 10 numSeqGrp ++ [.star numSeqGrp])⟩

/-- Group `\d+\s*,\s*\d+\s*` of the pattern on line 36 of transcript_filter.py. -/
def numPairGrp : RE := seqR [plusR digR, .star wsR, litS ",", .star wsR, plusR digR, .star wsR]

/-- Pattern `(\d+\s*,\s*\d+\s*){5,}`. -/
def pat24 : Pat := ⟨false, false, seqR (List.replicate 5 numPairGrp ++ [.star numPairGrp])⟩

/-- Pattern `^\s*\d+\s*,\s*\d+\s*,\s*\d+`. -/
def pat25 : Pat :=
  ⟨true, false, seqR [.star wsR, plusR digR, .star wsR, litS ",", .star wsR,
                      plusR digR, .star wsR, litS ",", .star wsR, plusR digR]⟩

/-- Pattern `^\s*[0-9\s,]+$`. -/
def pat26 : Pat :=
  ⟨true, true, seqR [.star wsR, plusR (.cls (fun c => c.isDigit || isWs c || c = ','))]⟩

/-- Pattern `^\s*$`. -/
def pat27 : Pat := ⟨true, true, .star wsR⟩

/-- The `FILTER_PATTERNS` list of `TranscriptFilter`, in source order. -/
def filterPatterns : List Pat :=
  [pat01, pat02, pat03, pat04, pat05, pat06, pat07, pat08, pat09, pat10, pat11,
   pat12, pat13, pat14, pat15, pat16, pat17, pat18, pat19, pat20, pat21, pat22,
   pat23, pat24, pat25, pat26, pat27]

/-- Whether any `FILTER_PATTERNS` entry fires on `t` (`re.search` per pattern;
the `(?i)` flags are realised by lowering the subject, all pattern letters
being lower-case, and the patterns without the flag contain no letters). -/
def matchesAnyPattern (t : Str) : Bool :=
  filterPatterns.any (fun p => reSearch p (lowerStr t))

/-- Value of `TranscriptFilter.MIN_LENGTH`. -/
def minLength : Nat := 3

/-- Value of `TranscriptFilter._max_recent`. -/
def maxRecent : Nat := 15

/-- Model of `TranscriptFilter._is_similar` (transcript_filter.py lines
130-164); the float comparison `shorter / longer >= 0.7` is modelled exactly
as `10 * shorter ≥ 7 * longer`, likewise the word-overlap ratio. Python
`set(...)` is modelled by deduplicated word lists, so intersection size is
counted over distinct words. -/
def isSimilar (t1 t2 : Str) : Bool :=
  if t1 = [] || t2 = [] then false
  else if t1 = t2 then true
  else if t1.length > 5 && t2.length > 5
          && (containsSub t1 t2 || containsSub t2 t1)
          && 10 * min t1.length t2.length ≥ 7 * max t1.length t2.length then true
  else
    let words1 := (splitWs t1).dedup
    let words2 := (splitWs t2).dedup
    if !words1.isEmpty && !words2.isEmpty
        && 10 * (words1.filter (fun w => w ∈ words2)).length
             ≥ 7 * max words1.length words2.length
        && words1.length ≤ 5 then true
  else false

/-- Model of `TranscriptFilter._has_repetitive_pattern` (transcript_filter.py
lines 166-205). The running `word_counts` dictionary that trips at the fifth
occurrence is modelled by its net effect, a count over the word list; the
float comparison `non_numeric < len(text) * 0.3` is modelled exactly. -/
def hasRepetitivePattern (text : Str) : Bool :=
  if text = [] || text.length < 10 then false
  else
    let words := splitWs text
    if words.length ≥ 6
        && (List.range (words.length - 4)).any (fun i =>
              countOcc (words.getD i [] ++ ' ' :: words.getD (i + 1) []) text ≥ 3) then
      true
    else if words.any (fun w => w.length > 2 && words.count w ≥ 5) then true
    else
      let nonNumeric := (text.filter (fun c => isAlphaAscii c || isWs c)).length
      if text.length > 20 && 10 * nonNumeric < 3 * text.length then true
      else false

/-- Lower-cased, stripped key under which an accepted text enters the
history (`text.lower().strip()` applied to the already stripped text). -/
def historyKey (t : Str) : Str := strip (lowerStr (strip t))

/-- Model of `TranscriptFilter.filter_text` (transcript_filter.py lines
51-103). The filter state is the `_recent_segments` list; the unused
`_repetition_count` dictionary is not modelled. Returns the accepted
(stripped) text or `none`, together with the new state. -/
def filterText (recent : List Str) (text : Str) : Option Str × List Str :=
  if text = [] then (none, recent)
  else
    let t := strip text
    if t.length < minLength then (none, recent)
    else if matchesAnyPattern t then (none, recent)
    else
      let textLower := strip (lowerStr t)
      let recentLower := recent.map (fun s => strip (lowerStr s))
      if recentLower.count textLower ≥ 1 then (none, recent)
      else if recentLower.countP (fun r => isSimilar textLower r) ≥ 2 then (none, recent)
      else if hasRepetitivePattern textLower then (none, recent)
      else
        let recent' := recent ++ [textLower]
        (some t, if recent'.length > maxRecent then recent'.tail else recent')

/-- Helper for `collapseWs`: the flag records whether the previous character
was whitespace (already emitted as one space). -/
def collapseWsAux : Bool → Str → Str
  | _, [] => []
  | prevWs, c :: cs =>
      if isWs c then
        if prevWs then collapseWsAux true cs else ' ' :: collapseWsAux true cs
      else c :: collapseWsAux false cs

/-- Python `re.sub(r'\s+', ' ', text)`: every whitespace run becomes one
space. -/
def collapseWs (s : Str) : Str := collapseWsAux false s

/-- Model of `TranscriptFilter.clean_text` (transcript_filter.py lines
105-128). -/
def cleanText (text : Str) : Str :=
  if text = [] then []
  else
    let t1 := collapseWs text
    let t2 := match t1 with
      | [] => ([] : Str)
      | c :: cs => if isLowerAscii c then asciiUpper c :: cs else c :: cs
    let t3 := if !t2.isEmpty && !(t2.getLast? = some '.' || t2.getLast? = some '!'
                                  || t2.getLast? = some '?')
              then t2 ++ ['.'] else t2
    strip t3

/-- Specification-side reading of the claim about `_is_similar`: equal, or
substring with length ratio at least 0.7, or word sets of size at most 5
each with overlap ratio at least 0.7. Used only to compare against
`isSimilar`. -/
def specIsSimilar (a b : Str) : Bool :=
  a = b
  || (a.length > 5 && b.length > 5 && (containsSub a b || containsSub b a)
      && 10 * min a.length b.length ≥ 7 * max a.length b.length)
  || (let wa := (splitWs a).dedup
      let wb := (splitWs b).dedup
      wa.length ≤ 5 && wb.length ≤ 5
      && 10 * (wa.filter (fun w => w ∈ wb)).length ≥ 7 * max wa.length wb.length)

/-- Specification-side reading of the claim about `_has_repetitive_pattern`
for texts of at least 10 characters: some contiguous 2-word substring recurs
at least 3 times, or some word longer than 2 characters recurs at least 5
times, or the text is longer than 20 characters with under 30 percent
alphabetic-or-space characters. Used only to compare against
`hasRepetitivePattern`. -/
def specHasRepetitive (text : Str) : Bool :=
  let words := splitWs text
  ((List.range (words.length - 1)).any (fun i =>
      countOcc (words.getD i [] ++ ' ' :: words.getD (i + 1) []) text ≥ 3))
  || words.any (fun w => w.length > 2 && words.count w ≥ 5)
  || (text.length > 20
      && 10 * (text.filter (fun c => isAlphaAscii c || isWs c)).length < 3 * text.length)

/-- Specification-side reading of the claim about `clean_text`: collapse
whitespace runs to single spaces, capitalize a lower-case first character,
append a period when the text does not end in a sentence terminator — with
no final trim. Used only to compare against `cleanText`. -/
def specCleanText (text : Str) : Str :=
  let t1 := collapseWs text
  let t2 := match t1 with
    | [] => ([] : Str)
    | c :: cs => if isLowerAscii c then asciiUpper c :: cs else c :: cs
  if !(t2.getLast? = some '.' || t2.getLast? = some '!' || t2.getLast? = some '?')
  then t2 ++ ['.'] else t2

/-- State of the `Transcriber` (transcriber.py): running flag, the `_audio_buffer`
accumulation list, the `_audio_queue` (as the list of enqueued windows, FIFO),
and the `_recent_segments` list of its `TranscriptFilter`. Audio samples have
an abstract type `α`. -/
structure TranscriberState (α : Type) where
  running : Bool
  buffer : List (List α)
  queue : List (List α)
  filterRecent : List Str

/-- Value of `Transcriber._chunk_size`: `int(3.0 * 16000)` samples. -/
def chunkSamples : Nat := 48000

/-- Total number of samples across a list of chunks
(`sum(len(chunk) for chunk in ...)`). -/
def sumLen {α : Type} (l : List (List α)) : Nat := (l.map List.length).sum

/-- Model of `Transcriber.add_audio` (transcriber.py lines 97-119): no-op
unless running; otherwise append the chunk, and if the accumulated samples
reach `_chunk_size`, enqueue the concatenation and clear the buffer. -/
def addAudio {α : Type} (s : TranscriberState α) (chunk : List α) : TranscriberState α :=
  if !s.running then s
  else
    let buf := s.buffer ++ [chunk]
    if sumLen buf ≥ chunkSamples then
      { s with buffer := [], queue := s.queue ++ [buf.flatten] }
    else { s with buffer := buf }

/-- Model of the state effect of a successful `Transcriber.start` (transcriber.py
lines 65-89): return early when already running, else set the running flag.
Backend initialization and thread creation have no effect on the modelled
fields. -/
def startT {α : Type} (s : TranscriberState α) : TranscriberState α :=
  if s.running then s else { s with running := true }

/-- Model of the state effect of `Transcriber.stop` (transcriber.py lines 91-95). -/
def stopT {α : Type} (s : TranscriberState α) : TranscriberState α :=
  { s with running := false }

/-- State of a freshly constructed `Transcriber` (transcriber.py `__init__`). -/
def initialTranscriber {α : Type} : TranscriberState α := ⟨false, [], [], []⟩

/-- Outcome of one `backend.transcribe` call on a dequeued window: a returned
optional text, or a raised exception. -/
inductive BackendOutcome where
  | ok (text : Option Str) : BackendOutcome
  | exc : BackendOutcome

/-- Model of one iteration of `Transcriber._transcription_worker`
(transcriber.py lines 121-156) on a dequeued window: `timestamp` is the
`time.time()` taken when processing of the window starts; an exception is
caught, logged and produces nothing; otherwise the text (when truthy) runs
through `filter_text` and `clean_text`, and a non-empty final result becomes
a Segment `(text, timestamp)`. Returns the new filter state and the
optionally emitted Segment. -/
def workerStep (recent : List Str) (oc : BackendOutcome) (timestamp : ℚ) :
    List Str × Option (Str × ℚ) :=
  match oc with
  | .exc => (recent, none)
  | .ok none => (recent, none)
  | .ok (some text) =>
      if text = [] then (recent, none)
      else
        match filterText recent text with
        | (none, r) => (r, none)
        | (some ft, r) =>
            if ft = [] then (r, none)
            else
              let ct := cleanText ft
              if ct = [] then (r, none) else (r, some (ct, timestamp))

/-- The worker loop over a finite list of dequeued windows, each with its
backend outcome and processing start time; returns the final filter state
and the emitted Segments in order. -/
def workerRun (recent : List Str) : List (BackendOutcome × ℚ) → List Str × List (Str × ℚ)
  | [] => (recent, [])
  | (oc, ts) :: rest =>
      match workerStep recent oc ts with
      | (r, none) => workerRun r rest
      | (r, some seg) =>
          let tailRun := workerRun r rest
          (tailRun.1, seg :: tailRun.2)

/-- The cleaned-segment stream obtained by feeding `texts` in order through
`filter_text` and `clean_text` on a fresh filter (the worker with each text
returned by the backend at timestamp 0). -/
def runFilterSeq (texts : List Str) : List Str :=
  (workerRun [] (texts.map (fun t => (BackendOutcome.ok (some t), 0)))).2.map Prod.fst

/-- Value of `AudioCapture.SILENCE_THRESHOLD`. -/
def silenceThreshold : ℚ := 1 / 100

/-- Value of `AudioCapture.SILENCE_DURATION` in seconds. -/
def silenceDuration : ℚ := 1 / 2

/-- Capacity of the `_silence_buffer` deque:
`int(SILENCE_DURATION * SAMPLE_RATE)`. -/
def silenceRingCap : Nat := 8000

/-- Silence-detection state of `AudioCapture` (audio_capture.py lines 49-53):
the trailing ring of per-block RMS values, the time of the last
above-threshold block, and the silent flag. -/
structure SilenceState where
  ringBuf : List ℚ
  lastAudioTime : ℚ
  isSilent : Bool

/-- Append to a `deque(maxlen=silenceRingCap)`: the oldest element drops out
once the capacity is exceeded. -/
def pushRing (buf : List ℚ) (x : ℚ) : List ℚ :=
  let b := buf ++ [x]
  if b.length > silenceRingCap then b.tail else b

/-- Mean of the ring (`np.mean`), with the source's guard mapping an empty
ring to 0. -/
def ringMean (buf : List ℚ) : ℚ :=
  if buf = [] then 0 else buf.sum / (buf.length : ℚ)

/-- Model of the silence-detection part of `AudioCapture._audio_callback`
(audio_capture.py lines 206-220) for one block: `rms` is the block's RMS and
`now` the current time. Above the threshold, the last-audio time is reset
and the flag cleared; otherwise, when the ring's mean stays below the
threshold, the flag is set to whether the elapsed time exceeds the silence
duration. -/
def audioStep (s : SilenceState) (rms now : ℚ) : SilenceState :=
  let buf := pushRing s.ringBuf rms
  if rms > silenceThreshold then
    { ringBuf := buf, lastAudioTime := now, isSilent := false }
  else
    if ringMean buf < silenceThreshold then
      { ringBuf := buf, lastAudioTime := s.lastAudioTime,
        isSilent := decide (now - s.lastAudioTime > silenceDuration) }
    else { s with ringBuf := buf }

/-! Helper lemmas shared between the claim theorems. -/

/-- Either `filter_text` rejects and leaves `_recent_segments` untouched, or it
accepts, returns the stripped text, and appends the lower-cased key (evicting
the head past capacity). -/
lemma filterText_cases (st : List Str) (t : Str) :
    ((filterText st t).1 = none ∧ (filterText st t).2 = st) ∨
    ((filterText st t).1 = some (strip t) ∧
      (filterText st t).2 =
        (if (st ++ [strip (lowerStr (strip t))]).length > maxRecent
         then (st ++ [strip (lowerStr (strip t))]).tail
         else st ++ [strip (lowerStr (strip t))])) := by
  unfold filterText
  by_cases h0 : t = []
  · rw [if_pos h0]; exact Or.inl ⟨rfl, rfl⟩
  rw [if_neg h0]
  by_cases h1 : (strip t).length < minLength
  · rw [if_pos h1]; exact Or.inl ⟨rfl, rfl⟩
  rw [if_neg h1]
  by_cases h2 : matchesAnyPattern (strip t) = true
  · rw [if_pos h2]; exact Or.inl ⟨rfl, rfl⟩
  rw [if_neg h2]
  by_cases h3 : List.count (strip (lowerStr (strip t))) (List.map (fun s => strip (lowerStr s)) st) ≥ 1
  · rw [if_pos h3]; exact Or.inl ⟨rfl, rfl⟩
  rw [if_neg h3]
  by_cases h4 : List.countP (fun r => isSimilar (strip (lowerStr (strip t))) r) (List.map (fun s => strip (lowerStr s)) st) ≥ 2
  · rw [if_pos h4]; exact Or.inl ⟨rfl, rfl⟩
  rw [if_neg h4]
  by_cases h5 : hasRepetitivePattern (strip (lowerStr (strip t))) = true
  · rw [if_pos h5]; exact Or.inl ⟨rfl, rfl⟩
  rw [if_neg h5]
  exact Or.inr ⟨rfl, by simp⟩

/-- One `filter_text` call keeps the history within capacity. -/
lemma filterText_length_le (st : List Str) (t : Str) (h : st.length ≤ maxRecent) :
    (filterText st t).2.length ≤ maxRecent := by
  rcases filterText_cases st t with ⟨-, h2⟩ | ⟨-, h2⟩
  · rw [h2]; exact h
  · rw [h2]
    split
    · next hgt =>
      rcases st with - | ⟨a, l⟩
      · simp at hgt ⊢
      · simpa using h
    · next hle => omega

/-- The history reached by folding any text sequence from the fresh filter
stays within capacity. -/
lemma filterText_fold_length_le (texts : List Str) (st : List Str)
    (h : st.length ≤ maxRecent) :
    (texts.foldl (fun s t => (filterText s t).2) st).length ≤ maxRecent := by
  induction texts generalizing st with
  | nil => exact h
  | cons t rest ih => exact ih _ (filterText_length_le st t h)

/-- C9: the claim that after every successful `start()`, including one on a
Transcriber left over from a previous session, the accumulation list and the
FilterHistory are empty, fails: `start()` never clears them. Starting a fresh
Transcriber, adding one small chunk, stopping and starting again leaves the
chunk in the accumulation buffer. -/
theorem c9_counterexample :
    (startT (stopT (addAudio (startT (initialTranscriber (α := Int))) [0]))).running = true ∧
    (startT (stopT (addAudio (startT (initialTranscriber (α := Int))) [0]))).buffer ≠ [] := by
  decide

/-- C9 (amended): the accumulation list and the FilterHistory are empty after
`start()` on a freshly constructed Transcriber, but `start()` itself never
resets them — it preserves both fields, so a session started on a reused
Transcriber keeps whatever a previous session left behind. -/
theorem c9_start_state :
    ((startT (initialTranscriber (α := Int))).buffer = [] ∧
     (startT (initialTranscriber (α := Int))).filterRecent = []) ∧
    (∀ (α : Type) (s : TranscriberState α),
       (startT s).buffer = s.buffer ∧ (startT s).filterRecent = s.filterRecent) := by
  refine ⟨⟨rfl, rfl⟩, fun α s => ?_⟩
  unfold startT
  split <;> exact ⟨rfl, rfl⟩

/-- Sum of chunk lengths distributes over an appended chunk. -/
lemma sumLen_append_single {α : Type} (l : List (List α)) (c : List α) :
    sumLen (l ++ [c]) = sumLen l + c.length := by
  simp [sumLen]

/-- Folding `add_audio` over chunks whose samples, together with the current
buffer, total exactly one window emits exactly that window. -/
lemma addAudio_fold {α : Type} (q : List (List α)) (h : List Str) :
    ∀ (chunks buf : List (List α)), chunks ≠ [] → (∀ c ∈ chunks, c ≠ []) →
      sumLen buf + sumLen chunks = chunkSamples →
      chunks.foldl addAudio ⟨true, buf, q, h⟩ = ⟨true, [], q ++ [(buf ++ chunks).flatten], h⟩
  | [], _, hne, _, _ => absurd rfl hne
  | [c], buf, _, _, hsum => by
      have hc : sumLen buf + c.length = chunkSamples := by
        simpa [sumLen] using hsum
      simp only [List.foldl_cons, List.foldl_nil, addAudio, Bool.not_true,
        Bool.false_eq_true, if_false, sumLen_append_single]
      rw [if_pos (by omega : sumLen buf + c.length ≥ chunkSamples)]
  | c :: c' :: cs, buf, _, hnonempty, hsum => by
      have hc' : c' ≠ [] := hnonempty c' (by simp)
      have hlen : 1 ≤ sumLen (c' :: cs) := by
        have : 1 ≤ c'.length := by
          cases c' with
          | nil => exact absurd rfl hc'
          | cons x xs => simp
        simp only [sumLen, List.map_cons, List.sum_cons]
        omega
      have hrest : sumLen (c :: c' :: cs) = c.length + sumLen (c' :: cs) := by
        simp [sumLen]
      have hlt : sumLen (buf ++ [c]) < chunkSamples := by
        rw [sumLen_append_single]; omega
      have step : addAudio ⟨true, buf, q, h⟩ c = ⟨true, buf ++ [c], q, h⟩ := by
        simp only [addAudio, Bool.not_true, Bool.false_eq_true, if_false]
        rw [if_neg (by omega)]
      rw [List.foldl_cons, step,
        addAudio_fold q h (c' :: cs) (buf ++ [c]) (by simp) (fun d hd => hnonempty d (by simp [hd]))
          (by rw [sumLen_append_single]; omega)]
      simp

/-- C6: while running, chunks whose sample counts total exactly
`3.0 * 16000` produce exactly one enqueued window, the concatenation of the
chunks in arrival order, and leave the accumulation buffer empty; while
stopped, `add_audio` changes nothing. (Chunks are actual audio blocks, hence
non-empty.) -/
theorem c6_add_audio :
    (∀ (α : Type) (q : List (List α)) (h : List Str) (chunks : List (List α)),
        chunks ≠ [] → (∀ c ∈ chunks, c ≠ []) → sumLen chunks = chunkSamples →
        chunks.foldl addAudio ⟨true, [], q, h⟩ = ⟨true, [], q ++ [chunks.flatten], h⟩)
    ∧ (∀ (α : Type) (s : TranscriberState α) (c : List α),
        s.running = false → addAudio s c = s) := by
  constructor
  · intro α q h chunks hne hnonempty hsum
    have := addAudio_fold q h chunks [] hne hnonempty (by simpa [sumLen] using hsum)
    simpa using this
  · intro α s c hr
    simp [addAudio, hr]

/-- C6 witness: one 48000-sample chunk while running is enqueued whole and
clears the buffer; one chunk while stopped changes nothing. -/
theorem c6_witness :
    ([List.replicate 48000 (0 : Int)].foldl addAudio ⟨true, [], [], []⟩
       = ⟨true, [], [List.replicate 48000 (0 : Int)], []⟩) ∧
    (addAudio (⟨false, [[1]], [], []⟩ : TranscriberState Int) [0] = ⟨false, [[1]], [], []⟩) := by
  constructor
  · have hne : List.replicate 48000 (0 : Int) ≠ [] := by
      intro h
      have hlen := congrArg List.length h
      rw [List.length_replicate, List.length_nil] at hlen
      omega
    have hsum : sumLen [List.replicate 48000 (0 : Int)] = chunkSamples := by
      show (List.map List.length [List.replicate 48000 (0 : Int)]).sum = chunkSamples
      rw [List.map_cons, List.map_nil, List.length_replicate, List.sum_cons, List.sum_nil]
      rfl
    have h := c6_add_audio.1 Int [] [] [List.replicate 48000 (0 : Int)]
      (List.cons_ne_nil _ _)
      (by intro c hc; rw [List.mem_singleton] at hc; subst hc; exact hne)
      hsum
    rw [List.flatten_cons, List.flatten_nil, List.append_nil, List.nil_append] at h
    exact h
  · exact c6_add_audio.2 Int _ _ rfl

/-- C5: from the fresh state, any sequence of `filter_text` calls leaves at
most 15 entries in `_recent_segments`, and an acceptance on a full history
of 15 entries evicts the oldest entry (the list head) before appending. -/
theorem c5_history_capacity :
    (∀ texts : List Str,
        (texts.foldl (fun s t => (filterText s t).2) []).length ≤ maxRecent)
    ∧ (∀ (st : List Str) (t ft : Str), st.length = maxRecent →
        (filterText st t).1 = some ft →
        (filterText st t).2 = st.tail ++ [strip (lowerStr (strip t))]) := by
  constructor
  · intro texts
    exact filterText_fold_length_le texts [] (by simp [maxRecent])
  · intro st t ft hlen hacc
    rcases filterText_cases st t with ⟨h1, -⟩ | ⟨-, h2⟩
    · rw [h1] at hacc; cases hacc
    · rw [h2, if_pos (by simp [hlen, maxRecent])]
      rcases st with - | ⟨a, l⟩
      · simp [maxRecent] at hlen
      · rfl

/-- C5 witness: a one-text run stays within capacity, and accepting a text on
a full 15-entry history drops the head and appends the lower-cased key. -/
theorem c5_witness :
    ([strL "hi"].foldl (fun s t => (filterText s t).2) []).length ≤ maxRecent ∧
    (filterText
        [strL "e1", strL "e2", strL "e3", strL "e4", strL "e5", strL "e6", strL "e7",
         strL "e8", strL "e9", strL "e10", strL "e11", strL "e12", strL "e13",
         strL "e14", strL "e15"] (strL "Let's review the budget")).2
      = [strL "e2", strL "e3", strL "e4", strL "e5", strL "e6", strL "e7",
         strL "e8", strL "e9", strL "e10", strL "e11", strL "e12", strL "e13",
         strL "e14", strL "e15"] ++ [strL "let's review the budget"] := by
  constructor
  · exact c5_history_capacity.1 [strL "hi"]
  · exact c5_history_capacity.2 _ _ (strL "Let's review the budget") (by decide) (by decide)

/-- C10: a rejected text (any `None` return of `filter_text`) leaves
`_recent_segments` exactly as it was; an accepted text changes it only by
appending one entry, preceded by at most one eviction of the head. -/
theorem c10_filter_frame :
    ∀ (st : List Str) (t : Str),
      ((filterText st t).1 = none → (filterText st t).2 = st) ∧
      ((filterText st t).1 ≠ none →
        ∃ e, (filterText st t).2 = st ++ [e] ∨ (filterText st t).2 = st.tail ++ [e]) := by
  intro st t
  rcases filterText_cases st t with ⟨h1, h2⟩ | ⟨h1, h2⟩
  · exact ⟨fun _ => h2, fun hne => absurd h1 hne⟩
  · constructor
    · intro hn; rw [h1] at hn; cases hn
    · intro _
      refine ⟨strip (lowerStr (strip t)), ?_⟩
      rw [h2]
      split
      · next hgt =>
          right
          rcases st with - | ⟨a, l⟩
          · simp [maxRecent] at hgt
          · rfl
      · left; rfl

/-- C10 witness: a rejected text (too short) leaves an empty history empty,
and an accepted text appends exactly one entry. -/
theorem c10_witness :
    (filterText [] (strL "hi")).2 = [] ∧
    ∃ e, (filterText [] (strL "Hello world")).2 = [] ++ [e] ∨
         (filterText [] (strL "Hello world")).2 = List.tail [] ++ [e] := by
  exact ⟨(c10_filter_frame [] (strL "hi")).1 (by decide),
         (c10_filter_frame [] (strL "Hello world")).2 (by decide)⟩

/-- C7: an exception from the backend produces nothing and the worker loop
continues with the remaining windows unchanged; and a Segment is emitted
only when the backend returned truthy text that `filter_text` accepted and
whose `clean_text` result is non-empty, with the Segment timestamp equal to
the processing start time of that window. -/
theorem c7_worker :
    (∀ (recent : List Str) (ts : ℚ) (rest : List (BackendOutcome × ℚ)),
        workerRun recent ((BackendOutcome.exc, ts) :: rest) = workerRun recent rest)
    ∧ (∀ (recent : List Str) (oc : BackendOutcome) (ts : ℚ) (seg : Str × ℚ),
        (workerStep recent oc ts).2 = some seg →
        seg.2 = ts ∧ ∃ text ft,
          oc = BackendOutcome.ok (some text) ∧ text ≠ [] ∧
          (filterText recent text).1 = some ft ∧
          seg.1 = cleanText ft ∧ cleanText ft ≠ []) := by
  constructor
  · intro recent ts rest
    rfl
  · intro recent oc ts seg h
    cases oc with
    | exc => cases h
    | ok res =>
      cases res with
      | none => cases h
      | some text =>
        simp only [workerStep] at h
        by_cases htext : text = []
        · rw [if_pos htext] at h; cases h
        rw [if_neg htext] at h
        rcases hft : filterText recent text with ⟨o, r⟩
        rw [hft] at h
        cases o with
        | none => simp only at h; cases h
        | some ft =>
          simp only at h
          by_cases hft0 : ft = []
          · rw [if_pos hft0] at h; cases h
          rw [if_neg hft0] at h
          by_cases hct : cleanText ft = []
          · simp only [if_pos hct] at h; cases h
          simp only [if_neg hct] at h
          injection h with h
          subst h
          refine ⟨rfl, text, ft, rfl, htext, ?_, rfl, hct⟩
          rw [hft]

/-- C7 witness: an exception window is skipped with the loop intact, and a
surviving text yields a Segment carrying `clean_text` output and the
processing start time. -/
theorem c7_witness :
    (workerRun [] [(BackendOutcome.exc, 0)] = workerRun [] []) ∧
    ((strL "Hello world.", (1 : ℚ)).2 = 1 ∧ ∃ text ft,
       BackendOutcome.ok (some (strL "Hello world")) = BackendOutcome.ok (some text) ∧
       text ≠ [] ∧ (filterText [] text).1 = some ft ∧
       (strL "Hello world.", (1 : ℚ)).1 = cleanText ft ∧ cleanText ft ≠ []) := by
  exact ⟨c7_worker.1 [] 0 [], c7_worker.2 [] _ 1 _ (by decide)⟩

/-- C8: a block with RMS above the 0.01 threshold resets the last-audio time
and clears the silent flag — hence over any all-above-threshold block
sequence the flag stays false — and the flag can only turn true when the
ring's mean RMS is below the threshold and more than 0.5 s have elapsed
since the last above-threshold block. -/
theorem c8_silence :
    (∀ (s : SilenceState) (rms now : ℚ), rms > silenceThreshold →
        audioStep s rms now = ⟨pushRing s.ringBuf rms, now, false⟩)
    ∧ (∀ (blocks : List (ℚ × ℚ)) (s : SilenceState), s.isSilent = false →
        (∀ b ∈ blocks, b.1 > silenceThreshold) →
        (blocks.foldl (fun st b => audioStep st b.1 b.2) s).isSilent = false)
    ∧ (∀ (s : SilenceState) (rms now : ℚ), s.isSilent = false →
        (audioStep s rms now).isSilent = true →
        rms ≤ silenceThreshold ∧
        ringMean (pushRing s.ringBuf rms) < silenceThreshold ∧
        now - s.lastAudioTime > silenceDuration) := by
  refine ⟨?_, ?_, ?_⟩
  · intro s rms now h
    simp [audioStep, h]
  · intro blocks
    induction blocks with
    | nil => intro s hs _; exact hs
    | cons b rest ih =>
      intro s hs hall
      have hb : b.1 > silenceThreshold := hall b (by simp)
      have hstep : (audioStep s b.1 b.2).isSilent = false := by
        simp [audioStep, hb]
      exact ih _ hstep (fun x hx => hall x (by simp [hx]))
  · intro s rms now hs h
    unfold audioStep at h
    by_cases h1 : rms > silenceThreshold
    · simp only [if_pos h1] at h; cases h
    simp only [if_neg h1] at h
    by_cases h2 : ringMean (pushRing s.ringBuf rms) < silenceThreshold
    · simp only [if_pos h2] at h
      exact ⟨le_of_not_lt h1, h2, of_decide_eq_true h⟩
    · simp only [if_neg h2] at h
      rw [hs] at h
      cases h

/-- C8 witness: a loud block clears the flag and resets the clock, a loud
sequence keeps the flag false, and a flag transition to true certifies a
sub-threshold ring mean and more than 0.5 s of elapsed silence. -/
theorem c8_witness :
    (audioStep ⟨[], 0, false⟩ 1 2 = ⟨pushRing [] 1, 2, false⟩) ∧
    (([((1 : ℚ), (0 : ℚ))].foldl (fun st b => audioStep st b.1 b.2)
        ⟨[], 0, false⟩).isSilent = false) ∧
    ((0 : ℚ) ≤ silenceThreshold ∧
      ringMean (pushRing [] 0) < silenceThreshold ∧
      (1 : ℚ) - (⟨[], 0, false⟩ : SilenceState).lastAudioTime > silenceDuration) := by
  refine ⟨c8_silence.1 ⟨[], 0, false⟩ 1 2 (by norm_num [silenceThreshold]),
          c8_silence.2.1 [((1 : ℚ), (0 : ℚ))] ⟨[], 0, false⟩ rfl ?_,
          c8_silence.2.2 ⟨[], 0, false⟩ 0 1 rfl ?_⟩
  · intro b hb
    rw [List.mem_singleton] at hb
    subst hb
    norm_num [silenceThreshold]
  · show (audioStep ⟨[], 0, false⟩ 0 1).isSilent = true
    norm_num [audioStep, pushRing, ringMean, silenceThreshold, silenceDuration, silenceRingCap]

/-- C2 counterexample: `_is_similar` is false on two equal empty strings
(the claimed characterization makes it true), and it is true on a pair whose
second word set has size 7 (the claimed characterization requires both word
sets to have size at most 5, and the substring ratio 9/13 is below 0.7). -/
theorem c2_counterexample :
    (isSimilar [] [] ≠ specIsSimilar [] []) ∧
    (isSimilar (strL "a b c d e") (strL "a b c d e f g")
      ≠ specIsSimilar (strL "a b c d e") (strL "a b c d e f g")) := by
  decide

/-- C2 (amended): `_is_similar(a, b)` is true exactly when both strings are
non-empty and (they are equal; or both are longer than 5 characters, one is
a substring of the other, and the length ratio is at least 0.7; or both word
sets are non-empty, the word set of `a` — not necessarily that of `b` — has
size at most 5, and the distinct-word overlap ratio is at least 0.7). -/
theorem c2_similar_characterization (a b : Str) :
    isSimilar a b = true ↔
      a ≠ [] ∧ b ≠ [] ∧
        (a = b
         ∨ (5 < a.length ∧ 5 < b.length ∧ (containsSub a b = true ∨ containsSub b a = true)
             ∧ 7 * max a.length b.length ≤ 10 * min a.length b.length)
         ∨ ((splitWs a).dedup ≠ [] ∧ (splitWs b).dedup ≠ [] ∧ (splitWs a).dedup.length ≤ 5
             ∧ 7 * max (splitWs a).dedup.length (splitWs b).dedup.length
                 ≤ 10 * ((splitWs a).dedup.filter (fun w => w ∈ (splitWs b).dedup)).length)) := by
  simp only [isSimilar]
  split_ifs with h0 h1 h2 h3
  · simp only [Bool.or_eq_true, decide_eq_true_eq] at h0
    simp only [Bool.false_eq_true, false_iff]
    rintro ⟨ha, hb, -⟩
    rcases h0 with h | h
    · exact ha h
    · exact hb h
  · simp only [Bool.or_eq_true, decide_eq_true_eq, not_or] at h0
    simp only [true_iff]
    exact ⟨h0.1, h0.2, Or.inl h1⟩
  · simp only [Bool.or_eq_true, decide_eq_true_eq, not_or] at h0
    simp only [Bool.and_eq_true, Bool.or_eq_true, decide_eq_true_eq, ge_iff_le] at h2
    obtain ⟨⟨⟨p1, p2⟩, p3⟩, p4⟩ := h2
    simp only [true_iff]
    exact ⟨h0.1, h0.2, Or.inr (Or.inl ⟨p1, p2, p3, p4⟩)⟩
  · simp only [Bool.or_eq_true, decide_eq_true_eq, not_or] at h0
    simp only [Bool.and_eq_true, Bool.not_eq_true', List.isEmpty_eq_false,
      decide_eq_true_eq, ge_iff_le] at h3
    obtain ⟨⟨⟨p1, p2⟩, p3⟩, p4⟩ := h3
    simp only [true_iff]
    exact ⟨h0.1, h0.2, Or.inr (Or.inr ⟨p1, p2, p4, p3⟩)⟩
  · simp only [Bool.and_eq_true, Bool.or_eq_true, decide_eq_true_eq, ge_iff_le] at h2
    simp only [Bool.and_eq_true, Bool.not_eq_true', List.isEmpty_eq_false,
      decide_eq_true_eq, ge_iff_le] at h3
    simp only [Bool.false_eq_true, false_iff]
    rintro ⟨ha, hb, hcase | ⟨p1, p2, p3, p4⟩ | ⟨p1, p2, p3, p4⟩⟩
    · exact h1 hcase
    · exact h2 ⟨⟨⟨p1, p2⟩, p3⟩, p4⟩
    · exact h3 ⟨⟨⟨p1, p2⟩, p4⟩, p3⟩

/-- C3 counterexample: in `"a b xbza bya bq"` (15 characters, 5 words) the
adjacent 2-word substring `"a b"` occurs 3 times in the text, so the claimed
characterization fires, but the code's 2-word scan is gated on having at
least 6 words and never probes it: `_has_repetitive_pattern` returns false. -/
theorem c3_counterexample :
    10 ≤ (strL "a b xbza bya bq").length ∧
    specHasRepetitive (strL "a b xbza bya bq") = true ∧
    hasRepetitivePattern (strL "a b xbza bya bq") = false := by
  decide

/-- C3 (amended): texts under 10 characters are never repetitive; for longer
texts `_has_repetitive_pattern` is true exactly when the text has at least 6
words and some adjacent word pair starting at an index at most
`len(words) - 5` whose joined string occurs at least 3 times in the text, or
some word longer than 2 characters occurs at least 5 times, or the text is
longer than 20 characters with under 30 percent alphabetic-or-space
characters; the two example evaluations hold as claimed. -/
theorem c3_repetitive_characterization :
    (∀ t : Str, t.length < 10 → hasRepetitivePattern t = false)
    ∧ (∀ t : Str, 10 ≤ t.length →
        (hasRepetitivePattern t = true ↔
          ((6 ≤ (splitWs t).length ∧ ∃ i < (splitWs t).length - 4,
              3 ≤ countOcc ((splitWs t).getD i [] ++ ' ' :: (splitWs t).getD (i + 1) []) t)
          ∨ (∃ w ∈ splitWs t, 2 < w.length ∧ 5 ≤ (splitWs t).count w)
          ∨ (20 < t.length ∧
              10 * (t.filter (fun c => isAlphaAscii c || isWs c)).length < 3 * t.length))))
    ∧ hasRepetitivePattern (strL "51, 52, 51, 52, 51, 52, 51, 52") = true
    ∧ hasRepetitivePattern (strL "Let's discuss the quarterly roadmap next week.") = false := by
  refine ⟨?_, ?_, by decide, by decide⟩
  · intro t ht
    have hc : (t = [] || decide (t.length < 10)) = true := by simp [ht]
    simp [hasRepetitivePattern, hc]
  · intro t ht
    have htne : t ≠ [] := by
      intro h; rw [h] at ht; simp at ht
    have hcond : ¬ ((t = [] || decide (t.length < 10)) = true) := by
      simp only [Bool.or_eq_true, decide_eq_true_eq, not_or]
      exact ⟨htne, by omega⟩
    simp only [hasRepetitivePattern]
    rw [if_neg hcond]
    split_ifs with h1 h2 h3
    · simp only [Bool.and_eq_true, decide_eq_true_eq, List.any_eq_true, List.mem_range,
        ge_iff_le, gt_iff_lt] at h1
      simp only [true_iff]
      obtain ⟨hlen6, i, hi, hcnt⟩ := h1
      exact Or.inl ⟨hlen6, i, hi, hcnt⟩
    · simp only [List.any_eq_true, Bool.and_eq_true, decide_eq_true_eq, ge_iff_le,
        gt_iff_lt] at h2
      simp only [true_iff]
      obtain ⟨w, hw, hlen, hcount⟩ := h2
      exact Or.inr (Or.inl ⟨w, hw, hlen, hcount⟩)
    · simp only [Bool.and_eq_true, decide_eq_true_eq, gt_iff_lt] at h3
      simp only [true_iff]
      exact Or.inr (Or.inr h3)
    · simp only [Bool.and_eq_true, decide_eq_true_eq, List.any_eq_true, List.mem_range,
        ge_iff_le, gt_iff_lt] at h1 h2 h3
      simp only [Bool.false_eq_true, false_iff]
      rintro (⟨hlen6, i, hi, hcnt⟩ | ⟨w, hw, hlen, hcount⟩ | ⟨hlen, hfrac⟩)
      · exact h1 ⟨hlen6, i, hi, hcnt⟩
      · exact h2 ⟨w, hw, hlen, hcount⟩
      · exact h3 ⟨hlen, hfrac⟩

/-- C3 witness: a 2-character text is never repetitive, and the repeating
number-pair text is repetitive via the 2-word rule at pair index 0. -/
theorem c3_witness :
    hasRepetitivePattern (strL "hi") = false ∧
    hasRepetitivePattern (strL "51, 52, 51, 52, 51, 52, 51, 52") = true := by
  refine ⟨c3_repetitive_characterization.1 (strL "hi") (by decide),
          (c3_repetitive_characterization.2.1 (strL "51, 52, 51, 52, 51, 52, 51, 52")
            (by decide)).mpr ?_⟩
  exact Or.inl ⟨by decide, 0, by decide, by decide⟩

/-- Reading whitespace off a list whose head is not whitespace changes nothing. -/
lemma dropWhile_isWs_eq_self {s : Str} (h : ∀ c, s.head? = some c → isWs c = false) :
    s.dropWhile isWs = s := by
  cases s with
  | nil => rfl
  | cons a l =>
    rw [List.dropWhile_cons, if_neg]
    simp [h a rfl]

/-- Python strip is the identity when neither end is whitespace. -/
lemma strip_eq_self {s : Str} (h1 : ∀ c, s.head? = some c → isWs c = false)
    (h2 : ∀ c, s.getLast? = some c → isWs c = false) : strip s = s := by
  unfold strip
  rw [dropWhile_isWs_eq_self h1,
      dropWhile_isWs_eq_self (fun c hc => h2 c (by rwa [List.head?_reverse] at hc)),
      List.reverse_reverse]

/-- Upper-casing an ASCII lower-case letter yields a non-whitespace character. -/
lemma isWs_asciiUpper_of_lower {c : Char} (h : isLowerAscii c = true) :
    isWs (asciiUpper c) = false := by
  simp only [isLowerAscii, Bool.and_eq_true, decide_eq_true_eq] at h
  obtain ⟨h1, h2⟩ := h
  have hn1 : 97 ≤ c.toNat := h1
  have hn2 : c.toNat ≤ 122 := h2
  have hif : ('a' ≤ c && c ≤ 'z') = true := by
    simp only [Bool.and_eq_true, decide_eq_true_eq]; exact ⟨h1, h2⟩
  have hv : (c.toNat - 32).isValidChar := Or.inl (by omega)
  have htn : (Char.ofNat (c.toNat - 32)).toNat = c.toNat - 32 := by
    rw [Char.ofNat, dif_pos hv]; rfl
  have hne : ∀ (d : Char), d.toNat ≠ c.toNat - 32 → (Char.ofNat (c.toNat - 32) = d) = False := by
    intro d hd
    simp only [eq_iff_iff, iff_false]
    intro he
    exact hd (by rw [← he, htn])
  rw [asciiUpper, if_pos hif, isWs]
  simp only [hne ' ' (by show (32 : Nat) ≠ c.toNat - 32; omega),
    hne '\t' (by show (9 : Nat) ≠ c.toNat - 32; omega),
    hne '\n' (by show (10 : Nat) ≠ c.toNat - 32; omega),
    hne '\x0d' (by show (13 : Nat) ≠ c.toNat - 32; omega),
    hne '\x0b' (by show (11 : Nat) ≠ c.toNat - 32; omega),
    hne '\x0c' (by show (12 : Nat) ≠ c.toNat - 32; omega)]
  simp

/-- On a text that does not start with whitespace, `clean_text` computes the
three advertised steps with no help from its final strip. -/
lemma cleanText_eq_specCleanText {t : Str} (hne : t ≠ [])
    (hh : ∀ c, t.head? = some c → isWs c = false) :
    cleanText t = specCleanText t := by
  obtain ⟨c, cs, rfl⟩ : ∃ c cs, t = c :: cs := by
    cases t with
    | nil => exact absurd rfl hne
    | cons c cs => exact ⟨c, cs, rfl⟩
  have hc : isWs c = false := hh c rfl
  have hcol : collapseWs (c :: cs) = c :: collapseWsAux false cs := by
    simp [collapseWs, collapseWsAux, hc]
  simp only [cleanText, specCleanText]
  rw [if_neg (by simp : ¬ (c :: cs = []))]
  simp only [hcol]
  have main : ∀ (d : Char) (x : Str), isWs d = false →
      strip (if (!(d :: x).isEmpty &&
                 !((d :: x).getLast? = some '.' || (d :: x).getLast? = some '!'
                   || (d :: x).getLast? = some '?'))
             then (d :: x) ++ ['.'] else (d :: x))
        = (if !((d :: x).getLast? = some '.' || (d :: x).getLast? = some '!'
                || (d :: x).getLast? = some '?')
           then (d :: x) ++ ['.'] else (d :: x)) := by
    intro d x hd
    rw [show (d :: x).isEmpty = false from rfl]
    simp only [Bool.not_false, Bool.true_and]
    split
    · apply strip_eq_self
      · intro e he
        rw [List.cons_append, List.head?_cons] at he
        have h2 := Option.some.inj he
        subst h2
        exact hd
      · intro e he
        rw [List.getLast?_concat] at he
        have h2 := Option.some.inj he
        subst h2
        rfl
    · next hlast =>
      simp only [Bool.not_eq_true', Bool.not_eq_false, Bool.or_eq_true,
        decide_eq_true_eq] at hlast
      apply strip_eq_self
      · intro e he
        rw [List.head?_cons] at he
        have h2 := Option.some.inj he
        subst h2
        exact hd
      · intro e he
        rcases hlast with (h | h) | h <;> rw [h] at he <;>
          (have h2 := Option.some.inj he; subst h2; rfl)
  by_cases hlow : isLowerAscii c = true
  · rw [if_pos hlow]
    exact main (asciiUpper c) _ (isWs_asciiUpper_of_lower hlow)
  · rw [if_neg hlow]
    exact main c _ hc

/-- C4 counterexample: on the non-empty input `" hi"` the code returns
`"hi."` (its final strip removes the leading space, and capitalization was
skipped because the first character was the space), while the three claimed
steps alone produce `" hi."`. -/
theorem c4_counterexample :
    cleanText (strL " hi") ≠ specCleanText (strL " hi") ∧
    cleanText (strL " hi") = strL "hi." := by
  decide

/-- C4 (amended): for every non-empty text that does not start with
whitespace (in the pipeline `clean_text` only receives stripped texts),
`clean_text` collapses whitespace runs to single spaces, capitalizes a
lower-case first character, and appends a period when the text does not end
in a sentence terminator; the two example evaluations hold as claimed. -/
theorem c4_clean_text :
    (∀ t : Str, t ≠ [] → (∀ c, t.head? = some c → isWs c = false) →
        cleanText t = specCleanText t)
    ∧ cleanText (strL "hello world") = strL "Hello world."
    ∧ cleanText (strL "Already punctuated!") = strL "Already punctuated!" := by
  exact ⟨fun t h1 h2 => cleanText_eq_specCleanText h1 h2, by decide, by decide⟩

/-- C4 witness: the amended statement applied to the concrete input
`"hello world"`. -/
theorem c4_witness :
    cleanText (strL "hello world") = specCleanText (strL "hello world") := by
  refine c4_clean_text.1 (strL "hello world") (by decide) ?_
  intro c hc
  have h2 := Option.some.inj hc
  subst h2
  rfl

/-- C1 counterexample: the four-text sequence emits two cleaned segments,
not one — the fourth text is similar to only the single surviving history
entry, and the near-duplicate rule requires at least two similar entries,
so it is accepted. -/
theorem c1_counterexample :
    runFilterSeq [strL "Thanks for watching the video", strL "Let's review the budget",
      strL "Let's review the budget", strL "Let's review the budget plan"]
      ≠ [strL "Let's review the budget."] := by
  decide

/-- C1 (amended): feeding the four texts in order to `filter_text` on a
fresh `TranscriptFilter`, the second and fourth survive (the first is
pattern-rejected, the third exact-duplicate-rejected; the fourth is similar
to only one history entry while near-duplicate rejection requires two), so
after `clean_text` the emitted stream is exactly
`["Let's review the budget.", "Let's review the budget plan."]`. -/
theorem c1_stream :
    runFilterSeq [strL "Thanks for watching the video", strL "Let's review the budget",
      strL "Let's review the budget", strL "Let's review the budget plan"]
      = [strL "Let's review the budget.", strL "Let's review the budget plan."] := by
  decide

end CS

